import Mathlib

/-!
Shallow embedding of the gosigar psnotify Linux netlink process-connector
listener: the watch table (`isWatching`), the dispatcher (`handleEvent`,
`readEvents` loop), and the wire decoding done through `binary.Read`.

Machine integers are modelled as `Nat` (all fields of the wire structures are
unsigned); Go `int` pids are `Int` (the wildcard watch key is `-1`).  A Go map
`map[int]*watch` is modelled as the function `Int → Option Nat` carrying the
`flags` bitmask of each entry.  Byte buffers are `List Nat` (each element one
byte).  `binary.Read`'s behaviour is modelled exactly: reading a fixed-size
structure from a buffer with fewer bytes than the structure's size fails,
leaving the destination at its zero value, and `Watcher.handleEvent` ignores
that failure.
-/

namespace Psnotify

/-! ## Event-kind bitmask constants (linux/cn_proc.h) -/

def PROC_EVENT_FORK : Nat := 0x00000001
def PROC_EVENT_EXEC : Nat := 0x00000002
def PROC_EVENT_EXIT : Nat := 0x80000000
def PROC_EVENT_UID : Nat := 0x00000004
def PROC_EVENT_GID : Nat := 0x00000040
def PROC_EVENT_SID : Nat := 0x00000080
def PROC_EVENT_PTRACE : Nat := 0x00000100
def PROC_EVENT_COMM : Nat := 0x00000200
def PROC_EVENT_COREDUMP : Nat := 0x40000000

def PROC_EVENT_ALL : Nat :=
  PROC_EVENT_FORK ||| PROC_EVENT_EXEC ||| PROC_EVENT_EXIT |||
  PROC_EVENT_GID ||| PROC_EVENT_SID ||| PROC_EVENT_UID

/-! ## Watch table -/

/-- The watch table `Watcher.watches : map[int]*watch`: each entry carries the
`flags` interest bitmask of one pid; the wildcard entry has key `-1`. -/
def Watches : Type := Int → Option Nat

/-- `Watcher.isWatching` (source lines 188–200): the explicit entry for `pid`
is consulted first; only when no explicit entry exists does the wildcard entry
at key `-1` decide. -/
def isWatching (w : Watches) (pid : Int) (event : Nat) : Bool :=
  match w pid with
  | some flags => (flags &&& event) == event
  | none =>
    match w (-1) with
    | some flags => (flags &&& event) == event
    | none => false

/-- Transcription of the spec's words for `IsWatching` (§4.3): true iff an
explicit entry for `pid` has `kind` set in its mask, OR (if no explicit entry
exists) the wildcard entry has `kind` set. -/
def isWatchingSpec (w : Watches) (pid : Int) (kind : Nat) : Bool :=
  match w pid with
  | some mask => (mask &&& kind) == kind
  | none =>
    match w (-1) with
    | some mask => (mask &&& kind) == kind
    | none => false

/-- Modelled from the spec: `Watcher.Watch` lives in psnotify.go, which is not
under src/.  Spec §4.3: `Subscribe(pid, mask)` merges `mask` into the existing
interest bitmask for `pid` (or inserts a new entry). -/
def watchOp (w : Watches) (pid : Int) (flags : Nat) : Watches :=
  fun q => if q = pid then
    match w pid with
    | some old => some (old ||| flags)
    | none => some flags
  else w q

/-- Modelled from the spec: `Watcher.RemoveWatch` lives in psnotify.go, which
is not under src/.  Spec §4.3: `Unsubscribe(pid)` removes the entry entirely. -/
def removeWatch (w : Watches) (pid : Int) : Watches :=
  fun q => if q = pid then none else w q

/-! ## Wire structures and their payload-level handlers -/

/-- linux/cn_proc.h `struct proc_event.fork` (source lines 70–75). -/
structure forkProcEvent where
  ParentPid : Nat
  ParentTgid : Nat
  ChildPid : Nat
  ChildTgid : Nat
deriving Repr, DecidableEq

/-- linux/cn_proc.h `struct proc_event.exec` (source lines 78–81). -/
structure execProcEvent where
  ProcessPid : Nat
  ProcessTgid : Nat
deriving Repr, DecidableEq

/-- linux/cn_proc.h `struct proc_event.exit` (source lines 84–89). -/
structure exitProcEvent where
  ProcessPid : Nat
  ProcessTgid : Nat
  ExitCode : Nat
  ExitSignal : Nat
deriving Repr, DecidableEq

/-- `struct id_proc_event` (source lines 106–111). -/
structure idProcEvent where
  ProcessPid : Nat
  ProcessTgid : Nat
  Rid : Nat
  eId : Nat
deriving Repr, DecidableEq

/-- `struct sid_proc_event` (source lines 121–124). -/
structure sidProcEvent where
  ProcessPid : Nat
  ProcessTgid : Nat
deriving Repr, DecidableEq

/-- `struct cn_msg` = cb_id{Idx,Val} + Seq + Ack + Len + Flags
(source lines 48–60); 20 bytes. -/
structure cnMsg where
  Idx : Nat
  Val : Nat
  Seq : Nat
  Ack : Nat
  MsgLen : Nat
  Flags : Nat
deriving Repr, DecidableEq

/-- `struct proc_event.{what,cpu,timestamp_ns}` (source lines 63–67); 16 bytes. -/
structure procEventHeader where
  What : Nat
  Cpu : Nat
  Timestamp : Nat
deriving Repr, DecidableEq

/-- Everything one `handleEvent` / read-loop iteration produces: the updated
watch table, the events sent on each typed channel, and the number of values
sent on the `Error` channel. -/
structure Out where
  watches : Watches
  forks : List (Int × Int)
  execs : List Int
  exits : List Int
  uids : List Int
  sids : List Int
  errs : Nat

/-- The no-effect outcome: table unchanged, nothing emitted. -/
def noop (w : Watches) : Out :=
  { watches := w, forks := [], execs := [], exits := [], uids := [], sids := [], errs := 0 }

/-- `handleEvent`'s PROC_EVENT_FORK case (source lines 214–234): fork-follow
(re-reading the map for the parent entry, falling back to the wildcard), then
the Fork emission check. -/
def handleFork (w : Watches) (ev : forkProcEvent) : Out :=
  let ppid : Int := (ev.ParentTgid : Nat)
  let pid : Int := (ev.ChildTgid : Nat)
  let w1 :=
    if isWatching w ppid PROC_EVENT_EXEC then
      match w ppid with
      | some flags => watchOp w pid flags
      | none =>
        match w (-1) with
        | some flags => watchOp w pid flags
        | none => w
    else w
  { noop w1 with
    forks := if isWatching w1 ppid PROC_EVENT_FORK then [(ppid, pid)] else [] }

/-- `handleEvent`'s PROC_EVENT_EXEC case (source lines 235–242). -/
def handleExec (w : Watches) (ev : execProcEvent) : Out :=
  let pid : Int := (ev.ProcessTgid : Nat)
  { noop w with
    execs := if isWatching w pid PROC_EVENT_EXEC then [pid] else [] }

/-- `handleEvent`'s PROC_EVENT_EXIT case (source lines 243–251). -/
def handleExit (w : Watches) (ev : exitProcEvent) : Out :=
  let pid : Int := (ev.ProcessTgid : Nat)
  if isWatching w pid PROC_EVENT_EXIT then
    { noop (removeWatch w pid) with exits := [pid] }
  else noop w

/-- `handleEvent`'s PROC_EVENT_UID/PROC_EVENT_GID case (source lines 252–259):
note the pid is `event.ProcessPid` and the interest tested is PROC_EVENT_UID
for both kinds. -/
def handleId (w : Watches) (ev : idProcEvent) : Out :=
  let pid : Int := (ev.ProcessPid : Nat)
  if isWatching w pid PROC_EVENT_UID then
    { noop (removeWatch w pid) with uids := [pid] }
  else noop w

/-- `handleEvent`'s PROC_EVENT_SID case (source lines 260–267): the pid is
`event.ProcessPid`. -/
def handleSid (w : Watches) (ev : sidProcEvent) : Out :=
  let pid : Int := (ev.ProcessPid : Nat)
  if isWatching w pid PROC_EVENT_SID then
    { noop (removeWatch w pid) with sids := [pid] }
  else noop w

/-! ## Byte-level decoding (`encoding/binary` with the host byte order) -/

/-- `sys.GetEndian()` returns the host's native byte order; the dispatcher is
parameterised over it. -/
inductive ByteOrder where
  | little
  | big
deriving Repr, DecidableEq

/-- Read one little- or big-endian `uint16` from the front of the buffer. -/
def readU16 (bo : ByteOrder) : List Nat → Option (Nat × List Nat)
  | b0 :: b1 :: r =>
    some (match bo with
      | .little => b0 + 256 * b1
      | .big => b1 + 256 * b0, r)
  | _ => none

/-- Read one `uint32` from the front of the buffer. -/
def readU32 (bo : ByteOrder) : List Nat → Option (Nat × List Nat)
  | b0 :: b1 :: b2 :: b3 :: r =>
    some (match bo with
      | .little => b0 + 256 * (b1 + 256 * (b2 + 256 * b3))
      | .big => b3 + 256 * (b2 + 256 * (b1 + 256 * b0)), r)
  | _ => none

/-- Read one `uint64` from the front of the buffer. -/
def readU64 (bo : ByteOrder) : List Nat → Option (Nat × List Nat)
  | b0 :: b1 :: b2 :: b3 :: b4 :: b5 :: b6 :: b7 :: r =>
    some (match bo with
      | .little =>
        b0 + 256 * (b1 + 256 * (b2 + 256 * (b3 + 256 *
          (b4 + 256 * (b5 + 256 * (b6 + 256 * b7))))))
      | .big =>
        b7 + 256 * (b6 + 256 * (b5 + 256 * (b4 + 256 *
          (b3 + 256 * (b2 + 256 * (b1 + 256 * b0)))))), r)
  | _ => none

/-- `binary.Read(buf, byteOrder, msg)` for `cnMsg` (20 bytes): on a shorter
buffer the read fails and the destination keeps its zero value. -/
def decodeCnMsg (bo : ByteOrder) (bs : List Nat) : Option (cnMsg × List Nat) := do
  let (idx, r) ← readU32 bo bs
  let (val, r) ← readU32 bo r
  let (seq, r) ← readU32 bo r
  let (ack, r) ← readU32 bo r
  let (len, r) ← readU16 bo r
  let (flags, r) ← readU16 bo r
  pure (⟨idx, val, seq, ack, len, flags⟩, r)

/-- `binary.Read` for `procEventHeader` (16 bytes). -/
def decodeHeader (bo : ByteOrder) (bs : List Nat) : Option (procEventHeader × List Nat) := do
  let (what, r) ← readU32 bo bs
  let (cpu, r) ← readU32 bo r
  let (ts, r) ← readU64 bo r
  pure (⟨what, cpu, ts⟩, r)

/-- `binary.Read` for `forkProcEvent` (16 bytes). -/
def decodeFork (bo : ByteOrder) (bs : List Nat) : Option (forkProcEvent × List Nat) := do
  let (ppid, r) ← readU32 bo bs
  let (ptgid, r) ← readU32 bo r
  let (cpid, r) ← readU32 bo r
  let (ctgid, r) ← readU32 bo r
  pure (⟨ppid, ptgid, cpid, ctgid⟩, r)

/-- `binary.Read` for `execProcEvent` (8 bytes). -/
def decodeExec (bo : ByteOrder) (bs : List Nat) : Option (execProcEvent × List Nat) := do
  let (pid, r) ← readU32 bo bs
  let (tgid, r) ← readU32 bo r
  pure (⟨pid, tgid⟩, r)

/-- `binary.Read` for `exitProcEvent` (16 bytes). -/
def decodeExit (bo : ByteOrder) (bs : List Nat) : Option (exitProcEvent × List Nat) := do
  let (pid, r) ← readU32 bo bs
  let (tgid, r) ← readU32 bo r
  let (code, r) ← readU32 bo r
  let (sig, r) ← readU32 bo r
  pure (⟨pid, tgid, code, sig⟩, r)

/-- `binary.Read` for `idProcEvent` (16 bytes). -/
def decodeId (bo : ByteOrder) (bs : List Nat) : Option (idProcEvent × List Nat) := do
  let (pid, r) ← readU32 bo bs
  let (tgid, r) ← readU32 bo r
  let (rid, r) ← readU32 bo r
  let (eid, r) ← readU32 bo r
  pure (⟨pid, tgid, rid, eid⟩, r)

/-- `binary.Read` for `sidProcEvent` (8 bytes). -/
def decodeSid (bo : ByteOrder) (bs : List Nat) : Option (sidProcEvent × List Nat) := do
  let (pid, r) ← readU32 bo bs
  let (tgid, r) ← readU32 bo r
  pure (⟨pid, tgid⟩, r)

/-- The zero values `binary.Read` leaves behind on a failed payload read. -/
def zeroFork : forkProcEvent := ⟨0, 0, 0, 0⟩

def zeroExec : execProcEvent := ⟨0, 0⟩

def zeroExit : exitProcEvent := ⟨0, 0, 0, 0⟩

def zeroId : idProcEvent := ⟨0, 0, 0, 0⟩

def zeroSid : sidProcEvent := ⟨0, 0⟩

/-! ## The dispatcher: `Watcher.handleEvent` (source lines 205–269) -/

/-- `Watcher.handleEvent`: decode `cnMsg` then `procEventHeader` (both error
returns are discarded by the source, so a failed read leaves the structure at
its zero value — in particular `hdr.What = 0`, which matches no switch case),
then dispatch on `hdr.What`.  A failed payload read likewise leaves the
payload structure zeroed and the case body still runs. -/
def handleEvent (bo : ByteOrder) (w : Watches) (data : List Nat) : Out :=
  match decodeCnMsg bo data with
  | none => noop w
  | some (_, r1) =>
    match decodeHeader bo r1 with
    | none => noop w
    | some (hdr, r2) =>
      if hdr.What == PROC_EVENT_FORK then
        handleFork w (((decodeFork bo r2).map Prod.fst).getD zeroFork)
      else if hdr.What == PROC_EVENT_EXEC then
        handleExec w (((decodeExec bo r2).map Prod.fst).getD zeroExec)
      else if hdr.What == PROC_EVENT_EXIT then
        handleExit w (((decodeExit bo r2).map Prod.fst).getD zeroExit)
      else if hdr.What == PROC_EVENT_UID || hdr.What == PROC_EVENT_GID then
        handleId w (((decodeId bo r2).map Prod.fst).getD zeroId)
      else if hdr.What == PROC_EVENT_SID then
        handleSid w (((decodeSid bo r2).map Prod.fst).getD zeroSid)
      else noop w

/-- The event kind a buffer dispatches on: the decoded header's `What`, or `0`
(the zero value, matching no case) when the envelope or header cannot be
decoded. -/
def eventKind (bo : ByteOrder) (data : List Nat) : Nat :=
  match decodeCnMsg bo data with
  | none => 0
  | some (_, r1) =>
    match decodeHeader bo r1 with
    | none => 0
    | some (hdr, _) => hdr.What

/-! ## The read loop: `Watcher.readEvents` (source lines 156–185) -/

def NLMSG_HDRLEN : Nat := 16

def NLMSG_DONE : Nat := 3

/-- `syscall.NlMsghdr`. -/
structure NlMsghdr where
  NlLen : Nat
  NlType : Nat
  NlFlags : Nat
  NlSeq : Nat
  NlPid : Nat
deriving Repr, DecidableEq

/-- One parsed `syscall.NetlinkMessage`. -/
structure NetlinkMessage where
  Header : NlMsghdr
  Data : List Nat
deriving Repr, DecidableEq

/-- `nlmAlignOf`: round up to the 4-byte netlink alignment. -/
def nlmAlign (n : Nat) : Nat := (n + 3) / 4 * 4

/-- The 16-byte netlink header, read in the host's native order (Go casts the
buffer prefix to `NlMsghdr` in place). -/
def decodeNlMsghdr (bo : ByteOrder) (bs : List Nat) : Option NlMsghdr := do
  let (len, r) ← readU32 bo bs
  let (ty, r) ← readU16 bo r
  let (fl, r) ← readU16 bo r
  let (seq, r) ← readU32 bo r
  let (pid, _) ← readU32 bo r
  pure ⟨len, ty, fl, seq, pid⟩

/-- `syscall.ParseNetlinkMessage`: repeatedly peel a 16-byte native-endian
header and `Len - 16` bytes of data off the buffer (advancing by the aligned
length); a header whose `Len` is below the header size or whose aligned length
overruns the buffer makes the whole parse fail with `none` (Go returns
`nil, EINVAL`, discarding any messages already parsed).  Fuel is the buffer
length; each step consumes at least 16 bytes. -/
def parseNetlink (bo : ByteOrder) : Nat → List Nat → Option (List NetlinkMessage)
  | _, [] => some []
  | 0, _ => some []
  | fuel + 1, b =>
    if b.length < NLMSG_HDRLEN then some []
    else
      match decodeNlMsghdr bo b with
      | none => some []
      | some h =>
        let l := nlmAlign h.NlLen
        if h.NlLen < NLMSG_HDRLEN || l > b.length then none
        else do
          let rest ← parseNetlink bo fuel (b.drop l)
          pure ({ Header := h, Data := (b.drop NLMSG_HDRLEN).take (h.NlLen - NLMSG_HDRLEN) } :: rest)

/-- One receive outcome of `syscall.Recvfrom`: a transport error, or `nr`
bytes of datagram. -/
inductive RecvResult where
  | rerr
  | rdata (bytes : List Nat)
deriving Repr

/-- Append the second iteration outcome after the first (channel sends
accumulate in order; the watch table of the later outcome wins). -/
def Out.seq (a b : Out) : Out :=
  { watches := b.watches
    forks := a.forks ++ b.forks
    execs := a.execs ++ b.execs
    exits := a.exits ++ b.exits
    uids := a.uids ++ b.uids
    sids := a.sids ++ b.sids
    errs := a.errs + b.errs }

/-- One iteration of the `readEvents` loop body (source lines 162–183): a
receive error or a datagram below `NLMSG_HDRLEN` puts one value on the `Error`
channel and continues; otherwise the datagram is parsed (the parse error is
discarded — `msgs, _ :=`) and every message of type `NLMSG_DONE` is handed to
`handleEvent`. -/
def readStep (bo : ByteOrder) (w : Watches) : RecvResult → Out
  | .rerr => { noop w with errs := 1 }
  | .rdata bs =>
    if bs.length < NLMSG_HDRLEN then { noop w with errs := 1 }
    else
      let msgs := (parseNetlink bo bs.length bs).getD []
      msgs.foldl
        (fun acc m =>
          if m.Header.NlType == NLMSG_DONE then
            Out.seq acc (handleEvent bo acc.watches m.Data)
          else acc)
        (noop w)

/-- The `readEvents` loop over a finite schedule of receive outcomes. -/
def readLoop (bo : ByteOrder) (w : Watches) : List RecvResult → Out
  | [] => noop w
  | r :: rs => Out.seq (readStep bo w r) (readLoop bo (readStep bo w r).watches rs)

/-! ## Encoders (the kernel side of the wire: `binary.Write` layouts) -/

def u16Bytes (bo : ByteOrder) (n : Nat) : List Nat :=
  match bo with
  | .little => [n % 256, n / 256 % 256]
  | .big => [n / 256 % 256, n % 256]

def u32Bytes (bo : ByteOrder) (n : Nat) : List Nat :=
  match bo with
  | .little => [n % 256, n / 256 % 256, n / 256 ^ 2 % 256, n / 256 ^ 3 % 256]
  | .big => [n / 256 ^ 3 % 256, n / 256 ^ 2 % 256, n / 256 % 256, n % 256]

def u64Bytes (bo : ByteOrder) (n : Nat) : List Nat :=
  match bo with
  | .little =>
    [n % 256, n / 256 % 256, n / 256 ^ 2 % 256, n / 256 ^ 3 % 256,
     n / 256 ^ 4 % 256, n / 256 ^ 5 % 256, n / 256 ^ 6 % 256, n / 256 ^ 7 % 256]
  | .big =>
    [n / 256 ^ 7 % 256, n / 256 ^ 6 % 256, n / 256 ^ 5 % 256, n / 256 ^ 4 % 256,
     n / 256 ^ 3 % 256, n / 256 ^ 2 % 256, n / 256 % 256, n % 256]

def encodeCnMsg (bo : ByteOrder) (m : cnMsg) : List Nat :=
  u32Bytes bo m.Idx ++ u32Bytes bo m.Val ++ u32Bytes bo m.Seq ++
  u32Bytes bo m.Ack ++ u16Bytes bo m.MsgLen ++ u16Bytes bo m.Flags

def encodeHeader (bo : ByteOrder) (h : procEventHeader) : List Nat :=
  u32Bytes bo h.What ++ u32Bytes bo h.Cpu ++ u64Bytes bo h.Timestamp

def encodeFork (bo : ByteOrder) (ev : forkProcEvent) : List Nat :=
  u32Bytes bo ev.ParentPid ++ u32Bytes bo ev.ParentTgid ++
  u32Bytes bo ev.ChildPid ++ u32Bytes bo ev.ChildTgid

def encodeExec (bo : ByteOrder) (ev : execProcEvent) : List Nat :=
  u32Bytes bo ev.ProcessPid ++ u32Bytes bo ev.ProcessTgid

def encodeExit (bo : ByteOrder) (ev : exitProcEvent) : List Nat :=
  u32Bytes bo ev.ProcessPid ++ u32Bytes bo ev.ProcessTgid ++
  u32Bytes bo ev.ExitCode ++ u32Bytes bo ev.ExitSignal

def encodeId (bo : ByteOrder) (ev : idProcEvent) : List Nat :=
  u32Bytes bo ev.ProcessPid ++ u32Bytes bo ev.ProcessTgid ++
  u32Bytes bo ev.Rid ++ u32Bytes bo ev.eId

def encodeSid (bo : ByteOrder) (ev : sidProcEvent) : List Nat :=
  u32Bytes bo ev.ProcessPid ++ u32Bytes bo ev.ProcessTgid

/-- Field bounds of the unsigned wire structures. -/
def cnMsgWF (m : cnMsg) : Prop :=
  m.Idx < 2 ^ 32 ∧ m.Val < 2 ^ 32 ∧ m.Seq < 2 ^ 32 ∧ m.Ack < 2 ^ 32 ∧
  m.MsgLen < 2 ^ 16 ∧ m.Flags < 2 ^ 16

def hdrWF (h : procEventHeader) : Prop :=
  h.What < 2 ^ 32 ∧ h.Cpu < 2 ^ 32 ∧ h.Timestamp < 2 ^ 64

def forkWF (ev : forkProcEvent) : Prop :=
  ev.ParentPid < 2 ^ 32 ∧ ev.ParentTgid < 2 ^ 32 ∧
  ev.ChildPid < 2 ^ 32 ∧ ev.ChildTgid < 2 ^ 32

def execWF (ev : execProcEvent) : Prop :=
  ev.ProcessPid < 2 ^ 32 ∧ ev.ProcessTgid < 2 ^ 32

def exitWF (ev : exitProcEvent) : Prop :=
  ev.ProcessPid < 2 ^ 32 ∧ ev.ProcessTgid < 2 ^ 32 ∧
  ev.ExitCode < 2 ^ 32 ∧ ev.ExitSignal < 2 ^ 32

def idWF (ev : idProcEvent) : Prop :=
  ev.ProcessPid < 2 ^ 32 ∧ ev.ProcessTgid < 2 ^ 32 ∧
  ev.Rid < 2 ^ 32 ∧ ev.eId < 2 ^ 32

def sidWF (ev : sidProcEvent) : Prop :=
  ev.ProcessPid < 2 ^ 32 ∧ ev.ProcessTgid < 2 ^ 32

/-! ## Lock-discipline traces of the watch-table accesses -/

/-- An atomic action on the shared watch table or its mutex. -/
inductive TAct where
  | lockT
  | unlockT
  | readT (p : Int)
  | writeT (p : Int)
deriving Repr, DecidableEq

/-- The table/mutex actions `Watcher.isWatching` performs (source lines
188–200): lock, read the pid entry, on a miss read the wildcard entry, unlock
(the deferred unlock runs at either return). -/
def isWatchingTrace (w : Watches) (pid : Int) : List TAct :=
  match w pid with
  | some _ => [.lockT, .readT pid, .unlockT]
  | none => [.lockT, .readT pid, .readT (-1), .unlockT]

/-- Modelled from the spec: `Watcher.Watch` is in psnotify.go, not under src/;
spec §4.3 has every table operation take the single table lock for its
duration.  Subscribe reads the pid's entry and writes the merged entry. -/
def watchOpTrace (pid : Int) : List TAct :=
  [.lockT, .readT pid, .writeT pid, .unlockT]

/-- The table/mutex actions of `Watcher.handleEvent`'s PROC_EVENT_FORK case
(source lines 214–234): the `isWatching` call, then — with the mutex already
released — the direct `w.watches[ppid]` (and possibly `w.watches[-1]`) map
accesses of the fork-follow branch, the `Watch` call, and the second
`isWatching` call. -/
def handleForkTrace (w : Watches) (ev : forkProcEvent) : List TAct :=
  let ppid : Int := (ev.ParentTgid : Nat)
  let pid : Int := (ev.ChildTgid : Nat)
  isWatchingTrace w ppid ++
  (if isWatching w ppid PROC_EVENT_EXEC then
    .readT ppid ::
      (match w ppid with
       | some _ => watchOpTrace pid
       | none =>
         .readT (-1) ::
           (match w (-1) with
            | some _ => watchOpTrace pid
            | none => []))
   else []) ++
  isWatchingTrace (handleFork w ev).watches ppid

/-- Lock discipline check: scanning the trace with the current lock depth,
every table read and write must happen with the lock held. -/
def locksOK : Nat → List TAct → Bool
  | _, [] => true
  | d, .lockT :: r => locksOK (d + 1) r
  | 0, .unlockT :: _ => false
  | d + 1, .unlockT :: r => locksOK d r
  | 0, .readT _ :: _ => false
  | d + 1, .readT _ :: r => locksOK (d + 1) r
  | 0, .writeT _ :: _ => false
  | d + 1, .writeT _ :: r => locksOK (d + 1) r

/-! ## Decode/encode round trips -/

theorem readU16_u16Bytes (bo : ByteOrder) (n : Nat) (h : n < 2 ^ 16) (r : List Nat) :
    readU16 bo (u16Bytes bo n ++ r) = some (n, r) := by
  cases bo <;> simp [u16Bytes, readU16] <;> omega

theorem readU32_u32Bytes (bo : ByteOrder) (n : Nat) (h : n < 2 ^ 32) (r : List Nat) :
    readU32 bo (u32Bytes bo n ++ r) = some (n, r) := by
  cases bo <;> simp [u32Bytes, readU32] <;> omega

theorem readU64_u64Bytes (bo : ByteOrder) (n : Nat) (h : n < 2 ^ 64) (r : List Nat) :
    readU64 bo (u64Bytes bo n ++ r) = some (n, r) := by
  cases bo <;> simp [u64Bytes, readU64] <;> omega

theorem decodeCnMsg_encode (bo : ByteOrder) (m : cnMsg) (r : List Nat) (h : cnMsgWF m) :
    decodeCnMsg bo (encodeCnMsg bo m ++ r) = some (m, r) := by
  obtain ⟨h1, h2, h3, h4, h5, h6⟩ := h
  simp [decodeCnMsg, encodeCnMsg, List.append_assoc,
    readU32_u32Bytes bo m.Idx h1, readU32_u32Bytes bo m.Val h2,
    readU32_u32Bytes bo m.Seq h3, readU32_u32Bytes bo m.Ack h4,
    readU16_u16Bytes bo m.MsgLen h5, readU16_u16Bytes bo m.Flags h6]

theorem decodeHeader_encode (bo : ByteOrder) (h : procEventHeader) (r : List Nat)
    (hw : hdrWF h) :
    decodeHeader bo (encodeHeader bo h ++ r) = some (h, r) := by
  obtain ⟨h1, h2, h3⟩ := hw
  simp [decodeHeader, encodeHeader, List.append_assoc,
    readU32_u32Bytes bo h.What h1, readU32_u32Bytes bo h.Cpu h2,
    readU64_u64Bytes bo h.Timestamp h3]

theorem decodeFork_encode (bo : ByteOrder) (ev : forkProcEvent) (r : List Nat)
    (hw : forkWF ev) :
    decodeFork bo (encodeFork bo ev ++ r) = some (ev, r) := by
  obtain ⟨h1, h2, h3, h4⟩ := hw
  simp [decodeFork, encodeFork, List.append_assoc,
    readU32_u32Bytes bo ev.ParentPid h1, readU32_u32Bytes bo ev.ParentTgid h2,
    readU32_u32Bytes bo ev.ChildPid h3, readU32_u32Bytes bo ev.ChildTgid h4]

theorem decodeExec_encode (bo : ByteOrder) (ev : execProcEvent) (r : List Nat)
    (hw : execWF ev) :
    decodeExec bo (encodeExec bo ev ++ r) = some (ev, r) := by
  obtain ⟨h1, h2⟩ := hw
  simp [decodeExec, encodeExec, List.append_assoc,
    readU32_u32Bytes bo ev.ProcessPid h1, readU32_u32Bytes bo ev.ProcessTgid h2]

theorem decodeExit_encode (bo : ByteOrder) (ev : exitProcEvent) (r : List Nat)
    (hw : exitWF ev) :
    decodeExit bo (encodeExit bo ev ++ r) = some (ev, r) := by
  obtain ⟨h1, h2, h3, h4⟩ := hw
  simp [decodeExit, encodeExit, List.append_assoc,
    readU32_u32Bytes bo ev.ProcessPid h1, readU32_u32Bytes bo ev.ProcessTgid h2,
    readU32_u32Bytes bo ev.ExitCode h3, readU32_u32Bytes bo ev.ExitSignal h4]

theorem decodeId_encode (bo : ByteOrder) (ev : idProcEvent) (r : List Nat)
    (hw : idWF ev) :
    decodeId bo (encodeId bo ev ++ r) = some (ev, r) := by
  obtain ⟨h1, h2, h3, h4⟩ := hw
  simp [decodeId, encodeId, List.append_assoc,
    readU32_u32Bytes bo ev.ProcessPid h1, readU32_u32Bytes bo ev.ProcessTgid h2,
    readU32_u32Bytes bo ev.Rid h3, readU32_u32Bytes bo ev.eId h4]

theorem decodeSid_encode (bo : ByteOrder) (ev : sidProcEvent) (r : List Nat)
    (hw : sidWF ev) :
    decodeSid bo (encodeSid bo ev ++ r) = some (ev, r) := by
  obtain ⟨h1, h2⟩ := hw
  simp [decodeSid, encodeSid, List.append_assoc,
    readU32_u32Bytes bo ev.ProcessPid h1, readU32_u32Bytes bo ev.ProcessTgid h2]

/-- A full connector message as handed to `handleEvent`: connector envelope,
process-event header, payload bytes. -/
def encodeMsg (bo : ByteOrder) (m : cnMsg) (h : procEventHeader) (payload : List Nat) :
    List Nat :=
  encodeCnMsg bo m ++ (encodeHeader bo h ++ payload)

theorem handleEvent_fork_msg (bo : ByteOrder) (w : Watches) (m : cnMsg)
    (hd : procEventHeader) (ev : forkProcEvent) (hm : cnMsgWF m) (hh : hdrWF hd)
    (hwhat : hd.What = PROC_EVENT_FORK) (hev : forkWF ev) :
    handleEvent bo w (encodeMsg bo m hd (encodeFork bo ev)) = handleFork w ev := by
  have hp : encodeFork bo ev = encodeFork bo ev ++ [] := by simp
  simp only [handleEvent, encodeMsg, decodeCnMsg_encode bo m _ hm,
    decodeHeader_encode bo hd _ hh, hwhat]
  rw [hp, decodeFork_encode bo ev [] hev]
  simp [PROC_EVENT_FORK]

theorem handleEvent_exec_msg (bo : ByteOrder) (w : Watches) (m : cnMsg)
    (hd : procEventHeader) (ev : execProcEvent) (hm : cnMsgWF m) (hh : hdrWF hd)
    (hwhat : hd.What = PROC_EVENT_EXEC) (hev : execWF ev) :
    handleEvent bo w (encodeMsg bo m hd (encodeExec bo ev)) = handleExec w ev := by
  have hp : encodeExec bo ev = encodeExec bo ev ++ [] := by simp
  simp only [handleEvent, encodeMsg, decodeCnMsg_encode bo m _ hm,
    decodeHeader_encode bo hd _ hh, hwhat]
  rw [hp, decodeExec_encode bo ev [] hev]
  simp [PROC_EVENT_FORK, PROC_EVENT_EXEC]

theorem handleEvent_exit_msg (bo : ByteOrder) (w : Watches) (m : cnMsg)
    (hd : procEventHeader) (ev : exitProcEvent) (hm : cnMsgWF m) (hh : hdrWF hd)
    (hwhat : hd.What = PROC_EVENT_EXIT) (hev : exitWF ev) :
    handleEvent bo w (encodeMsg bo m hd (encodeExit bo ev)) = handleExit w ev := by
  have hp : encodeExit bo ev = encodeExit bo ev ++ [] := by simp
  simp only [handleEvent, encodeMsg, decodeCnMsg_encode bo m _ hm,
    decodeHeader_encode bo hd _ hh, hwhat]
  rw [hp, decodeExit_encode bo ev [] hev]
  simp [PROC_EVENT_FORK, PROC_EVENT_EXEC, PROC_EVENT_EXIT]

theorem handleEvent_id_msg (bo : ByteOrder) (w : Watches) (m : cnMsg)
    (hd : procEventHeader) (ev : idProcEvent) (hm : cnMsgWF m) (hh : hdrWF hd)
    (hwhat : hd.What = PROC_EVENT_UID ∨ hd.What = PROC_EVENT_GID) (hev : idWF ev) :
    handleEvent bo w (encodeMsg bo m hd (encodeId bo ev)) = handleId w ev := by
  have hp : encodeId bo ev = encodeId bo ev ++ [] := by simp
  rcases hwhat with hwhat | hwhat <;>
  · simp only [handleEvent, encodeMsg, decodeCnMsg_encode bo m _ hm,
      decodeHeader_encode bo hd _ hh, hwhat]
    rw [hp, decodeId_encode bo ev [] hev]
    simp [PROC_EVENT_FORK, PROC_EVENT_EXEC, PROC_EVENT_EXIT, PROC_EVENT_UID, PROC_EVENT_GID]

theorem handleEvent_sid_msg (bo : ByteOrder) (w : Watches) (m : cnMsg)
    (hd : procEventHeader) (ev : sidProcEvent) (hm : cnMsgWF m) (hh : hdrWF hd)
    (hwhat : hd.What = PROC_EVENT_SID) (hev : sidWF ev) :
    handleEvent bo w (encodeMsg bo m hd (encodeSid bo ev)) = handleSid w ev := by
  have hp : encodeSid bo ev = encodeSid bo ev ++ [] := by simp
  simp only [handleEvent, encodeMsg, decodeCnMsg_encode bo m _ hm,
    decodeHeader_encode bo hd _ hh, hwhat]
  rw [hp, decodeSid_encode bo ev [] hev]
  simp [PROC_EVENT_FORK, PROC_EVENT_EXEC, PROC_EVENT_EXIT, PROC_EVENT_UID,
    PROC_EVENT_GID, PROC_EVENT_SID]

/-! ## Bitmask helper lemmas -/

theorem lor_land_absorb (a f : Nat) : (a ||| f) &&& f = f := by
  apply Nat.eq_of_testBit_eq
  intro i
  simp only [Nat.testBit_land, Nat.testBit_lor]
  cases a.testBit i <;> cases f.testBit i <;> simp

theorem land_mask_trans (g f e : Nat) (h1 : f &&& e = e) (h2 : g &&& f = f) :
    g &&& e = e := by
  apply Nat.eq_of_testBit_eq
  intro i
  have t1 := congrArg (fun x => x.testBit i) h1
  have t2 := congrArg (fun x => x.testBit i) h2
  simp only [Nat.testBit_land] at t1 t2 ⊢
  cases hg : g.testBit i <;> cases hf : f.testBit i <;> cases he : e.testBit i <;>
    simp_all

/-- The parent-or-wildcard entry the fork-follow branch copies the flags
from: the explicit entry if present, the wildcard entry otherwise. -/
def matchEntry (w : Watches) (pid : Int) : Option Nat :=
  match w pid with
  | some f => some f
  | none => w (-1)

theorem matchEntry_mask (w : Watches) (p : Int) (f e : Nat)
    (hmatch : matchEntry w p = some f) (hwatch : isWatching w p e = true) :
    f &&& e = e := by
  unfold matchEntry at hmatch
  unfold isWatching at hwatch
  cases hp : w p with
  | some fl =>
    rw [hp] at hmatch hwatch
    simp at hmatch hwatch
    exact hmatch ▸ hwatch
  | none =>
    rw [hp] at hmatch hwatch
    cases hq : w (-1) with
    | some fl =>
      rw [hq] at hmatch hwatch
      simp at hmatch hwatch
      exact hmatch ▸ hwatch
    | none => rw [hq] at hmatch; cases hmatch

theorem handleFork_watches_of_match (w : Watches) (ev : forkProcEvent) (f : Nat)
    (hmatch : matchEntry w (ev.ParentTgid : Int) = some f)
    (hwatch : isWatching w (ev.ParentTgid : Int) PROC_EVENT_EXEC = true) :
    (handleFork w ev).watches = watchOp w (ev.ChildTgid : Int) f := by
  unfold matchEntry at hmatch
  cases hp : w (ev.ParentTgid : Int) with
  | some fl =>
    rw [hp] at hmatch
    simp at hmatch
    subst hmatch
    simp [handleFork, hwatch, hp, noop]
  | none =>
    rw [hp] at hmatch
    simp at hmatch
    simp [handleFork, hwatch, hp, hmatch, noop]

theorem watchOp_lookup_self (w : Watches) (pid : Int) (flags : Nat) :
    watchOp w pid flags pid =
      some (match w pid with | some old => old ||| flags | none => flags) := by
  cases hw : w pid <;> simp [watchOp, hw]

/-! ## Decoder consumption lemmas -/

theorem readU16_length (bo : ByteOrder) (bs : List Nat) (x : Nat) (r : List Nat)
    (h : readU16 bo bs = some (x, r)) : bs.length = r.length + 2 := by
  cases bs with
  | nil => simp [readU16] at h
  | cons b0 t0 =>
    cases t0 with
    | nil => simp [readU16] at h
    | cons b1 t1 =>
      simp [readU16] at h
      obtain ⟨-, h2⟩ := h
      subst h2
      simp

theorem readU32_length (bo : ByteOrder) (bs : List Nat) (x : Nat) (r : List Nat)
    (h : readU32 bo bs = some (x, r)) : bs.length = r.length + 4 := by
  cases bs with
  | nil => simp [readU32] at h
  | cons b0 t0 =>
  cases t0 with
  | nil => simp [readU32] at h
  | cons b1 t1 =>
  cases t1 with
  | nil => simp [readU32] at h
  | cons b2 t2 =>
  cases t2 with
  | nil => simp [readU32] at h
  | cons b3 t3 =>
    simp [readU32] at h
    obtain ⟨-, h2⟩ := h
    subst h2
    simp

theorem readU64_length (bo : ByteOrder) (bs : List Nat) (x : Nat) (r : List Nat)
    (h : readU64 bo bs = some (x, r)) : bs.length = r.length + 8 := by
  cases bs with
  | nil => simp [readU64] at h
  | cons b0 t0 =>
  cases t0 with
  | nil => simp [readU64] at h
  | cons b1 t1 =>
  cases t1 with
  | nil => simp [readU64] at h
  | cons b2 t2 =>
  cases t2 with
  | nil => simp [readU64] at h
  | cons b3 t3 =>
  cases t3 with
  | nil => simp [readU64] at h
  | cons b4 t4 =>
  cases t4 with
  | nil => simp [readU64] at h
  | cons b5 t5 =>
  cases t5 with
  | nil => simp [readU64] at h
  | cons b6 t6 =>
  cases t6 with
  | nil => simp [readU64] at h
  | cons b7 t7 =>
    simp [readU64] at h
    obtain ⟨-, h2⟩ := h
    subst h2
    simp

theorem decodeCnMsg_length (bo : ByteOrder) (bs : List Nat) (m : cnMsg) (r : List Nat)
    (h : decodeCnMsg bo bs = some (m, r)) : bs.length = r.length + 20 := by
  simp only [decodeCnMsg, bind, Option.bind_eq_some] at h
  obtain ⟨⟨x1, r1⟩, e1, ⟨x2, r2⟩, e2, ⟨x3, r3⟩, e3, ⟨x4, r4⟩, e4,
    ⟨x5, r5⟩, e5, ⟨x6, r6⟩, e6, efin⟩ := h
  simp at efin
  obtain ⟨-, hr⟩ := efin
  have l1 := readU32_length bo bs x1 r1 e1
  have l2 := readU32_length bo r1 x2 r2 e2
  have l3 := readU32_length bo r2 x3 r3 e3
  have l4 := readU32_length bo r3 x4 r4 e4
  have l5 := readU16_length bo r4 x5 r5 e5
  have l6 := readU16_length bo r5 x6 r6 e6
  subst hr
  omega

theorem decodeHeader_length (bo : ByteOrder) (bs : List Nat) (h : procEventHeader)
    (r : List Nat) (hh : decodeHeader bo bs = some (h, r)) : bs.length = r.length + 16 := by
  simp only [decodeHeader, bind, Option.bind_eq_some] at hh
  obtain ⟨⟨x1, r1⟩, e1, ⟨x2, r2⟩, e2, ⟨x3, r3⟩, e3, efin⟩ := hh
  simp at efin
  obtain ⟨-, hr⟩ := efin
  have l1 := readU32_length bo bs x1 r1 e1
  have l2 := readU32_length bo r1 x2 r2 e2
  have l3 := readU64_length bo r2 x3 r3 e3
  subst hr
  omega

/-! ## Concrete example states used for evaluation -/

/-- An explicit watch on pid 1 with Fork and Exec interest. -/
def exW1 : Watches :=
  fun q => if q = (1 : Int) then some (PROC_EVENT_FORK ||| PROC_EVENT_EXEC) else none

/-- A wildcard-only subscription for all event kinds. -/
def exWAll : Watches :=
  fun q => if q = (-1 : Int) then some PROC_EVENT_ALL else none

/-- An explicit watch on pid 7 for all event kinds. -/
def exW7 : Watches :=
  fun q => if q = (7 : Int) then some PROC_EVENT_ALL else none

/-- A zeroed connector envelope. -/
def zeroCn : cnMsg := ⟨0, 0, 0, 0, 0, 0⟩

theorem isWatching_watchOp_self (w : Watches) (pid : Int) (f e : Nat)
    (h : f &&& e = e) : isWatching (watchOp w pid f) pid e = true := by
  unfold isWatching
  rw [watchOp_lookup_self]
  cases hw : w pid with
  | some old =>
    simp [hw]
    exact land_mask_trans (old ||| f) f e h (lor_land_absorb old f)
  | none => simp [hw, h]

/-! ## Claims -/

/-- C1: Fork-follow — if the watch table is watching `parentPid` (explicitly
or via the wildcard) for the Exec interest, then after `handleEvent`
processes a Fork payload for `(parentTgid, childTgid)` the child is watched
with at least the matching entry's mask, and a subsequent Exec event for the
child is delivered. -/
theorem C1_fork_follow (bo : ByteOrder) (w : Watches) (m m2 : cnMsg)
    (hd hd2 : procEventHeader) (ev : forkProcEvent) (ex : execProcEvent) (f : Nat)
    (hm : cnMsgWF m) (hh : hdrWF hd) (hwhat : hd.What = PROC_EVENT_FORK)
    (hev : forkWF ev)
    (hm2 : cnMsgWF m2) (hh2 : hdrWF hd2) (hwhat2 : hd2.What = PROC_EVENT_EXEC)
    (hex : execWF ex) (hextgid : ex.ProcessTgid = ev.ChildTgid)
    (hmatch : matchEntry w (ev.ParentTgid : Int) = some f)
    (hwatch : isWatching w (ev.ParentTgid : Int) PROC_EVENT_EXEC = true) :
    ∃ g,
      (handleEvent bo w (encodeMsg bo m hd (encodeFork bo ev))).watches
        (ev.ChildTgid : Int) = some g ∧
      g &&& f = f ∧
      (handleEvent bo
        (handleEvent bo w (encodeMsg bo m hd (encodeFork bo ev))).watches
        (encodeMsg bo m2 hd2 (encodeExec bo ex))).execs = [(ev.ChildTgid : Int)] := by
  rw [handleEvent_fork_msg bo w m hd ev hm hh hwhat hev]
  rw [handleFork_watches_of_match w ev f hmatch hwatch]
  rw [handleEvent_exec_msg bo _ m2 hd2 ex hm2 hh2 hwhat2 hex]
  have hfe : f &&& PROC_EVENT_EXEC = PROC_EVENT_EXEC :=
    matchEntry_mask w _ f _ hmatch hwatch
  refine ⟨(match w (ev.ChildTgid : Int) with | some old => old ||| f | none => f),
    watchOp_lookup_self w _ f, ?_, ?_⟩
  · cases hw : w (ev.ChildTgid : Int) with
    | some old => simp [hw, lor_land_absorb]
    | none => simp [hw]
  · have hiw : isWatching (watchOp w (ev.ChildTgid : Int) f) (ev.ChildTgid : Int)
        PROC_EVENT_EXEC = true := isWatching_watchOp_self w _ f _ hfe
    simp [handleExec, hextgid, hiw, noop]

/-- C1 witness: wildcard subscription for all kinds, Fork for parent tgid 1
and child tgid 2, then an Exec for tgid 2. -/
theorem C1_fork_follow_witness :
    isWatching exWAll ((1 : Nat) : Int) PROC_EVENT_EXEC = true ∧
    ∃ g,
      (handleEvent .little exWAll (encodeMsg .little zeroCn ⟨PROC_EVENT_FORK, 0, 0⟩
        (encodeFork .little ⟨5, 1, 6, 2⟩))).watches ((2 : Nat) : Int) = some g ∧
      g &&& PROC_EVENT_ALL = PROC_EVENT_ALL ∧
      (handleEvent .little
        (handleEvent .little exWAll (encodeMsg .little zeroCn ⟨PROC_EVENT_FORK, 0, 0⟩
          (encodeFork .little ⟨5, 1, 6, 2⟩))).watches
        (encodeMsg .little zeroCn ⟨PROC_EVENT_EXEC, 0, 0⟩
          (encodeExec .little ⟨9, 2⟩))).execs = [((2 : Nat) : Int)] :=
  ⟨by decide,
    C1_fork_follow .little exWAll zeroCn zeroCn ⟨PROC_EVENT_FORK, 0, 0⟩
      ⟨PROC_EVENT_EXEC, 0, 0⟩ ⟨5, 1, 6, 2⟩ ⟨9, 2⟩ PROC_EVENT_ALL
      (by norm_num [cnMsgWF, zeroCn]) (by norm_num [hdrWF, PROC_EVENT_FORK]) rfl
      (by norm_num [forkWF])
      (by norm_num [cnMsgWF, zeroCn]) (by norm_num [hdrWF, PROC_EVENT_EXEC]) rfl
      (by norm_num [execWF]) rfl
      (by decide) (by decide)⟩

/-- C2 counterexample: with only a wildcard subscription for all kinds, pid 5
is watched for Exit and the Exit event is processed (emitted), yet afterwards
`IsWatching(5, Exit)` is still true — the wildcard entry answers once the
explicit entry is gone — refuting "IsWatching(pid, kind) returns false for
every kind". -/
theorem C2_exit_cleanup_counterexample :
    isWatching exWAll ((5 : Nat) : Int) PROC_EVENT_EXIT = true ∧
    (handleEvent .little exWAll (encodeMsg .little zeroCn ⟨PROC_EVENT_EXIT, 0, 0⟩
      (encodeExit .little ⟨5, 5, 0, 0⟩))).exits = [((5 : Nat) : Int)] ∧
    isWatching (handleEvent .little exWAll (encodeMsg .little zeroCn ⟨PROC_EVENT_EXIT, 0, 0⟩
      (encodeExit .little ⟨5, 5, 0, 0⟩))).watches ((5 : Nat) : Int) PROC_EVENT_EXIT = true := by
  decide

/-- C2 (amended): after the Dispatcher processes an Exit event for a pid
watched for the Exit kind, that pid's explicit watch entry is removed and the
Exit event is emitted; `IsWatching(pid, kind)` thereafter equals the wildcard
entry's mask test for every kind (so it is false for every kind exactly when
no wildcard entry exists), unless a new subscription is made afterwards. -/
theorem C2_exit_cleanup_amended (bo : ByteOrder) (w : Watches) (m : cnMsg)
    (hd : procEventHeader) (ev : exitProcEvent)
    (hm : cnMsgWF m) (hh : hdrWF hd) (hwhat : hd.What = PROC_EVENT_EXIT)
    (hev : exitWF ev)
    (hwatch : isWatching w (ev.ProcessTgid : Int) PROC_EVENT_EXIT = true) :
    (handleEvent bo w (encodeMsg bo m hd (encodeExit bo ev))).watches
      (ev.ProcessTgid : Int) = none ∧
    (∀ k, isWatching (handleEvent bo w (encodeMsg bo m hd (encodeExit bo ev))).watches
        (ev.ProcessTgid : Int) k =
      (match w (-1) with | some fl => (fl &&& k) == k | none => false)) ∧
    (handleEvent bo w (encodeMsg bo m hd (encodeExit bo ev))).exits =
      [(ev.ProcessTgid : Int)] := by
  rw [handleEvent_exit_msg bo w m hd ev hm hh hwhat hev]
  have hne : ((-1 : Int) = (ev.ProcessTgid : Int)) = False := by
    simp only [eq_iff_iff, iff_false]
    omega
  refine ⟨?_, ?_, ?_⟩
  · simp [handleExit, hwatch, noop, removeWatch]
  · intro k
    simp [handleExit, hwatch, noop]
    unfold isWatching removeWatch
    simp [hne]
  · simp [handleExit, hwatch, noop]

/-- C2 witness for the amended claim: explicit watch on pid 7, Exit for
tgid 7, no wildcard entry. -/
theorem C2_exit_cleanup_amended_witness :
    isWatching exW7 ((7 : Nat) : Int) PROC_EVENT_EXIT = true ∧
    ((handleEvent .little exW7 (encodeMsg .little zeroCn ⟨PROC_EVENT_EXIT, 0, 0⟩
        (encodeExit .little ⟨7, 7, 0, 0⟩))).watches ((7 : Nat) : Int) = none ∧
     (∀ k, isWatching (handleEvent .little exW7 (encodeMsg .little zeroCn
          ⟨PROC_EVENT_EXIT, 0, 0⟩ (encodeExit .little ⟨7, 7, 0, 0⟩))).watches
        ((7 : Nat) : Int) k =
        (match exW7 (-1) with | some fl => (fl &&& k) == k | none => false)) ∧
     (handleEvent .little exW7 (encodeMsg .little zeroCn ⟨PROC_EVENT_EXIT, 0, 0⟩
        (encodeExit .little ⟨7, 7, 0, 0⟩))).exits = [((7 : Nat) : Int)]) :=
  ⟨by decide,
    C2_exit_cleanup_amended .little exW7 zeroCn ⟨PROC_EVENT_EXIT, 0, 0⟩ ⟨7, 7, 0, 0⟩
      (by norm_num [cnMsgWF, zeroCn]) (by norm_num [hdrWF, PROC_EVENT_EXIT]) rfl
      (by norm_num [exitWF]) (by decide)⟩

/-- C3 counterexample: a uid-change payload with thread pid 7 and
thread-group id 8, under an explicit watch on 7 only: the dispatcher emits the
identity-change event for 7 (the `ProcessPid` field) even though pid 8 — the
thread-group id the claim requires — is not watched at all. -/
theorem C3_pid_fields_counterexample :
    (handleEvent .little exW7 (encodeMsg .little zeroCn ⟨PROC_EVENT_UID, 0, 0⟩
      (encodeId .little ⟨7, 8, 0, 0⟩))).uids = [((7 : Nat) : Int)] ∧
    ((7 : Nat) : Int) ≠ ((8 : Nat) : Int) ∧
    isWatching exW7 ((8 : Nat) : Int) PROC_EVENT_UID = false := by
  decide

/-- C3 (amended): fork, exec and exit handling filter on and emit the
payload's thread-group id, but uid/gid and sid handling filter on and emit
the payload's thread pid (`process_pid`). -/
theorem C3_pid_fields_amended (bo : ByteOrder) (w : Watches) (m : cnMsg)
    (cpu ts : Nat) (hm : cnMsgWF m) (hcpu : cpu < 2 ^ 32) (hts : ts < 2 ^ 64)
    (evf : forkProcEvent) (hevf : forkWF evf)
    (evx : execProcEvent) (hevx : execWF evx)
    (evt : exitProcEvent) (hevt : exitWF evt)
    (evi : idProcEvent) (hevi : idWF evi)
    (evs : sidProcEvent) (hevs : sidWF evs) :
    ((handleEvent bo w (encodeMsg bo m ⟨PROC_EVENT_FORK, cpu, ts⟩ (encodeFork bo evf))).forks =
      (if isWatching
          (handleEvent bo w (encodeMsg bo m ⟨PROC_EVENT_FORK, cpu, ts⟩
            (encodeFork bo evf))).watches
          (evf.ParentTgid : Int) PROC_EVENT_FORK
        then [((evf.ParentTgid : Int), (evf.ChildTgid : Int))] else [])) ∧
    ((handleEvent bo w (encodeMsg bo m ⟨PROC_EVENT_EXEC, cpu, ts⟩ (encodeExec bo evx))).execs =
      (if isWatching w (evx.ProcessTgid : Int) PROC_EVENT_EXEC
        then [(evx.ProcessTgid : Int)] else [])) ∧
    ((handleEvent bo w (encodeMsg bo m ⟨PROC_EVENT_EXIT, cpu, ts⟩ (encodeExit bo evt))).exits =
      (if isWatching w (evt.ProcessTgid : Int) PROC_EVENT_EXIT
        then [(evt.ProcessTgid : Int)] else [])) ∧
    ((handleEvent bo w (encodeMsg bo m ⟨PROC_EVENT_UID, cpu, ts⟩ (encodeId bo evi))).uids =
      (if isWatching w (evi.ProcessPid : Int) PROC_EVENT_UID
        then [(evi.ProcessPid : Int)] else [])) ∧
    ((handleEvent bo w (encodeMsg bo m ⟨PROC_EVENT_GID, cpu, ts⟩ (encodeId bo evi))).uids =
      (if isWatching w (evi.ProcessPid : Int) PROC_EVENT_UID
        then [(evi.ProcessPid : Int)] else [])) ∧
    ((handleEvent bo w (encodeMsg bo m ⟨PROC_EVENT_SID, cpu, ts⟩ (encodeSid bo evs))).sids =
      (if isWatching w (evs.ProcessPid : Int) PROC_EVENT_SID
        then [(evs.ProcessPid : Int)] else [])) := by
  refine ⟨?_, ?_, ?_, ?_, ?_, ?_⟩
  · rw [handleEvent_fork_msg bo w m _ evf hm ⟨by norm_num [PROC_EVENT_FORK], hcpu, hts⟩
      rfl hevf]
    simp [handleFork, noop]
  · rw [handleEvent_exec_msg bo w m _ evx hm ⟨by norm_num [PROC_EVENT_EXEC], hcpu, hts⟩
      rfl hevx]
    simp [handleExec, noop]
  · rw [handleEvent_exit_msg bo w m _ evt hm ⟨by norm_num [PROC_EVENT_EXIT], hcpu, hts⟩
      rfl hevt]
    cases hiw : isWatching w (evt.ProcessTgid : Int) PROC_EVENT_EXIT <;>
      simp [handleExit, hiw, noop]
  · rw [handleEvent_id_msg bo w m _ evi hm ⟨by norm_num [PROC_EVENT_UID], hcpu, hts⟩
      (Or.inl rfl) hevi]
    cases hiw : isWatching w (evi.ProcessPid : Int) PROC_EVENT_UID <;>
      simp [handleId, hiw, noop]
  · rw [handleEvent_id_msg bo w m _ evi hm ⟨by norm_num [PROC_EVENT_GID], hcpu, hts⟩
      (Or.inr rfl) hevi]
    cases hiw : isWatching w (evi.ProcessPid : Int) PROC_EVENT_UID <;>
      simp [handleId, hiw, noop]
  · rw [handleEvent_sid_msg bo w m _ evs hm ⟨by norm_num [PROC_EVENT_SID], hcpu, hts⟩
      rfl hevs]
    cases hiw : isWatching w (evs.ProcessPid : Int) PROC_EVENT_SID <;>
      simp [handleSid, hiw, noop]

/-- C3 witness for the amended claim: the uid case at thread pid 7,
thread-group id 8, under an explicit watch on 7. -/
theorem C3_pid_fields_amended_witness :
    (handleEvent .little exW7 (encodeMsg .little zeroCn ⟨PROC_EVENT_UID, 0, 0⟩
      (encodeId .little ⟨7, 8, 0, 0⟩))).uids =
      (if isWatching exW7 ((7 : Nat) : Int) PROC_EVENT_UID
        then [((7 : Nat) : Int)] else []) :=
  (C3_pid_fields_amended .little exW7 zeroCn 0 0 (by norm_num [cnMsgWF, zeroCn])
    (by norm_num) (by norm_num)
    ⟨1, 1, 2, 2⟩ (by norm_num [forkWF]) ⟨1, 1⟩ (by norm_num [execWF])
    ⟨1, 1, 0, 0⟩ (by norm_num [exitWF]) ⟨7, 8, 0, 0⟩ (by norm_num [idWF])
    ⟨1, 1⟩ (by norm_num [sidWF])).2.2.2.1

/-- C4 counterexample: a message whose envelope and event header decode fine
(kind = Fork) but whose payload is missing entirely: `handleEvent` publishes
nothing on the error queue and, with a wildcard subscription present, even
emits a Fork event for the zero-valued payload (pid 0) — refuting both the
"publishes the failure" and the "discards the message without emitting any
typed event" parts. -/
theorem C4_decode_error_counterexample :
    (handleEvent .little exWAll (encodeCnMsg .little zeroCn ++
      encodeHeader .little ⟨PROC_EVENT_FORK, 0, 0⟩)).errs = 0 ∧
    (handleEvent .little exWAll (encodeCnMsg .little zeroCn ++
      encodeHeader .little ⟨PROC_EVENT_FORK, 0, 0⟩)).forks =
      [(((0 : Nat) : Int), ((0 : Nat) : Int))] := by
  decide

/-- C4 (amended): the read loop's minimum-size check is the only decode
failure that is published on the error queue; inside the dispatcher, a
message too short for the envelope or the event header is silently discarded
(no error published, no event emitted, watch table unchanged), and a
truncated payload of a recognized kind is processed as the zero-valued
payload rather than discarded. -/
theorem C4_decode_error_amended (bo : ByteOrder) (w : Watches) (data : List Nat)
    (h : data.length < 36) :
    (handleEvent bo w data).errs = 0 ∧
    (handleEvent bo w data).forks = [] ∧
    (handleEvent bo w data).execs = [] ∧
    (handleEvent bo w data).exits = [] ∧
    (handleEvent bo w data).uids = [] ∧
    (handleEvent bo w data).sids = [] ∧
    ∀ p, (handleEvent bo w data).watches p = w p := by
  unfold handleEvent
  cases hc : decodeCnMsg bo data with
  | none => simp [noop]
  | some pr =>
    obtain ⟨mm, r1⟩ := pr
    dsimp only
    have l1 := decodeCnMsg_length bo data mm r1 hc
    cases hh : decodeHeader bo r1 with
    | none => simp [noop]
    | some pr2 =>
      obtain ⟨hd, r2⟩ := pr2
      have l2 := decodeHeader_length bo r1 hd r2 hh
      exfalso
      omega

/-- C4 witness for the amended claim: the empty message. -/
theorem C4_decode_error_amended_witness :
    ([] : List Nat).length < 36 ∧
    (handleEvent .little exWAll []).errs = 0 ∧
    (handleEvent .little exWAll []).forks = [] ∧
    (handleEvent .little exWAll []).watches ((0 : Nat) : Int) = exWAll ((0 : Nat) : Int) :=
  ⟨by decide,
    (C4_decode_error_amended .little exWAll [] (by decide)).1,
    (C4_decode_error_amended .little exWAll [] (by decide)).2.1,
    (C4_decode_error_amended .little exWAll [] (by decide)).2.2.2.2.2.2 0⟩

/-- C8: a message whose decoded event-header kind is outside the known
enumeration (including kind 0, the value left by a failed header decode)
produces no event on any typed queue, no error, and leaves the watch table
untouched: the message is silently ignored. -/
theorem C8_unknown_kind (bo : ByteOrder) (w : Watches) (data : List Nat)
    (h1 : eventKind bo data ≠ PROC_EVENT_FORK)
    (h2 : eventKind bo data ≠ PROC_EVENT_EXEC)
    (h3 : eventKind bo data ≠ PROC_EVENT_EXIT)
    (h4 : eventKind bo data ≠ PROC_EVENT_UID)
    (h5 : eventKind bo data ≠ PROC_EVENT_GID)
    (h6 : eventKind bo data ≠ PROC_EVENT_SID) :
    (handleEvent bo w data).errs = 0 ∧
    (handleEvent bo w data).forks = [] ∧
    (handleEvent bo w data).execs = [] ∧
    (handleEvent bo w data).exits = [] ∧
    (handleEvent bo w data).uids = [] ∧
    (handleEvent bo w data).sids = [] ∧
    ∀ p, (handleEvent bo w data).watches p = w p := by
  unfold handleEvent
  unfold eventKind at h1 h2 h3 h4 h5 h6
  cases hc : decodeCnMsg bo data with
  | none => simp [noop]
  | some pr =>
    obtain ⟨mm, r1⟩ := pr
    dsimp only
    rw [hc] at h1 h2 h3 h4 h5 h6
    dsimp only at h1 h2 h3 h4 h5 h6
    cases hh : decodeHeader bo r1 with
    | none => simp [noop]
    | some pr2 =>
      obtain ⟨hd, r2⟩ := pr2
      rw [hh] at h1 h2 h3 h4 h5 h6
      dsimp only at h1 h2 h3 h4 h5 h6
      simp [h1, h2, h3, h4, h5, h6, noop]

/-- C8 witness: a well-formed message with the unknown kind 0x300. -/
theorem C8_unknown_kind_witness :
    eventKind .little (encodeMsg .little zeroCn ⟨0x300, 0, 0⟩ []) ≠ PROC_EVENT_FORK ∧
    (handleEvent .little exWAll (encodeMsg .little zeroCn ⟨0x300, 0, 0⟩ [])).errs = 0 ∧
    (handleEvent .little exWAll (encodeMsg .little zeroCn ⟨0x300, 0, 0⟩ [])).forks = [] ∧
    (handleEvent .little exWAll (encodeMsg .little zeroCn ⟨0x300, 0, 0⟩ [])).watches
      ((0 : Nat) : Int) = exWAll ((0 : Nat) : Int) :=
  ⟨by decide,
    (C8_unknown_kind .little exWAll _ (by decide) (by decide) (by decide) (by decide)
      (by decide) (by decide)).1,
    (C8_unknown_kind .little exWAll _ (by decide) (by decide) (by decide) (by decide)
      (by decide) (by decide)).2.1,
    (C8_unknown_kind .little exWAll _ (by decide) (by decide) (by decide) (by decide)
      (by decide) (by decide)).2.2.2.2.2.2 0⟩

/-- C10: processing a message that dispatches as an Exec payload never
mutates the watch table; its only effect is emitting an Exec event when a
matching subscription exists. -/
theorem C10_exec_frame (bo : ByteOrder) (w : Watches) (data : List Nat)
    (hk : eventKind bo data = PROC_EVENT_EXEC) :
    (∀ p, (handleEvent bo w data).watches p = w p) ∧
    (handleEvent bo w data).forks = [] ∧
    (handleEvent bo w data).exits = [] ∧
    (handleEvent bo w data).uids = [] ∧
    (handleEvent bo w data).sids = [] ∧
    (handleEvent bo w data).errs = 0 ∧
    ∃ p, (handleEvent bo w data).execs =
      (if isWatching w p PROC_EVENT_EXEC then [p] else []) := by
  unfold handleEvent
  unfold eventKind at hk
  cases hc : decodeCnMsg bo data with
  | none => rw [hc] at hk; simp [PROC_EVENT_EXEC] at hk
  | some pr =>
    obtain ⟨mm, r1⟩ := pr
    dsimp only
    rw [hc] at hk
    dsimp only at hk
    cases hh : decodeHeader bo r1 with
    | none => rw [hh] at hk; simp [PROC_EVENT_EXEC] at hk
    | some pr2 =>
      obtain ⟨hd, r2⟩ := pr2
      rw [hh] at hk
      dsimp only at hk
      simp [hk, PROC_EVENT_FORK, PROC_EVENT_EXEC, handleExec, noop]
      exact ⟨_, rfl⟩

/-- C10 witness: an Exec message for tgid 3 with watch table `exW1`. -/
theorem C10_exec_frame_witness :
    eventKind .little (encodeMsg .little zeroCn ⟨PROC_EVENT_EXEC, 0, 0⟩
      (encodeExec .little ⟨3, 3⟩)) = PROC_EVENT_EXEC ∧
    (handleEvent .little exW1 (encodeMsg .little zeroCn ⟨PROC_EVENT_EXEC, 0, 0⟩
      (encodeExec .little ⟨3, 3⟩))).watches ((1 : Nat) : Int) = exW1 ((1 : Nat) : Int) ∧
    (handleEvent .little exW1 (encodeMsg .little zeroCn ⟨PROC_EVENT_EXEC, 0, 0⟩
      (encodeExec .little ⟨3, 3⟩))).forks = [] :=
  ⟨by decide,
    (C10_exec_frame .little exW1 _ (by decide)).1 1,
    (C10_exec_frame .little exW1 _ (by decide)).2.1⟩

/-- C5: `IsWatching(pid, kind)` agrees with the spec's description — true iff
the explicit entry for `pid` has `kind` set in its mask, or, only when no
explicit entry exists, the wildcard entry has `kind` set; for a pid with an
explicit entry the explicit entry alone determines the result. -/
theorem C5_isWatching_semantics (w : Watches) (pid : Int) (kind : Nat) :
    isWatching w pid kind = isWatchingSpec w pid kind ∧
    (∀ f, w pid = some f → isWatching w pid kind = ((f &&& kind) == kind)) ∧
    (w pid = none → isWatching w pid kind =
      (match w (-1) with | some f => (f &&& kind) == kind | none => false)) := by
  refine ⟨rfl, ?_, ?_⟩
  · intro f hf
    unfold isWatching
    rw [hf]
  · intro hf
    unfold isWatching
    rw [hf]

/-- C5 witness: pid 1 with an explicit Fork|Exec entry. -/
theorem C5_isWatching_semantics_witness :
    exW1 (1 : Int) = some (PROC_EVENT_FORK ||| PROC_EVENT_EXEC) ∧
    isWatching exW1 (1 : Int) PROC_EVENT_EXEC =
      (((PROC_EVENT_FORK ||| PROC_EVENT_EXEC) &&& PROC_EVENT_EXEC) == PROC_EVENT_EXEC) :=
  ⟨by decide,
    (C5_isWatching_semantics exW1 1 PROC_EVENT_EXEC).2.1
      (PROC_EVENT_FORK ||| PROC_EVENT_EXEC) (by decide)⟩

/-- C6: a uid/gid credential-change event whose `ProcessPid` matches a
Uid-interest subscription makes the Dispatcher remove that pid's watch entry
and emit the identity-change event carrying the pid, and likewise a sid
session-change event matching a Sid-interest subscription. -/
theorem C6_id_sid_remove_emit (bo : ByteOrder) (w : Watches) (m : cnMsg)
    (cpu ts : Nat) (hm : cnMsgWF m) (hcpu : cpu < 2 ^ 32) (hts : ts < 2 ^ 64)
    (evi : idProcEvent) (hevi : idWF evi) (evs : sidProcEvent) (hevs : sidWF evs)
    (what : Nat) (hwhat : what = PROC_EVENT_UID ∨ what = PROC_EVENT_GID)
    (hwi : isWatching w (evi.ProcessPid : Int) PROC_EVENT_UID = true)
    (hws : isWatching w (evs.ProcessPid : Int) PROC_EVENT_SID = true) :
    ((handleEvent bo w (encodeMsg bo m ⟨what, cpu, ts⟩ (encodeId bo evi))).watches
        (evi.ProcessPid : Int) = none ∧
     (handleEvent bo w (encodeMsg bo m ⟨what, cpu, ts⟩ (encodeId bo evi))).uids =
        [(evi.ProcessPid : Int)]) ∧
    ((handleEvent bo w (encodeMsg bo m ⟨PROC_EVENT_SID, cpu, ts⟩
        (encodeSid bo evs))).watches (evs.ProcessPid : Int) = none ∧
     (handleEvent bo w (encodeMsg bo m ⟨PROC_EVENT_SID, cpu, ts⟩
        (encodeSid bo evs))).sids = [(evs.ProcessPid : Int)]) := by
  have hw32 : what < 2 ^ 32 := by
    rcases hwhat with h | h <;> subst h <;> norm_num [PROC_EVENT_UID, PROC_EVENT_GID]
  rw [handleEvent_id_msg bo w m _ evi hm ⟨hw32, hcpu, hts⟩ hwhat hevi,
    handleEvent_sid_msg bo w m _ evs hm ⟨by norm_num [PROC_EVENT_SID], hcpu, hts⟩
      rfl hevs]
  refine ⟨⟨?_, ?_⟩, ?_, ?_⟩ <;> simp [handleId, handleSid, hwi, hws, noop, removeWatch]

/-- C6 witness: uid change and sid change for pid 7 under an all-kinds watch
on 7. -/
theorem C6_id_sid_remove_emit_witness :
    isWatching exW7 ((7 : Nat) : Int) PROC_EVENT_UID = true ∧
    (((handleEvent .little exW7 (encodeMsg .little zeroCn ⟨PROC_EVENT_UID, 0, 0⟩
        (encodeId .little ⟨7, 7, 0, 0⟩))).watches ((7 : Nat) : Int) = none ∧
      (handleEvent .little exW7 (encodeMsg .little zeroCn ⟨PROC_EVENT_UID, 0, 0⟩
        (encodeId .little ⟨7, 7, 0, 0⟩))).uids = [((7 : Nat) : Int)]) ∧
     ((handleEvent .little exW7 (encodeMsg .little zeroCn ⟨PROC_EVENT_SID, 0, 0⟩
        (encodeSid .little ⟨7, 7⟩))).watches ((7 : Nat) : Int) = none ∧
      (handleEvent .little exW7 (encodeMsg .little zeroCn ⟨PROC_EVENT_SID, 0, 0⟩
        (encodeSid .little ⟨7, 7⟩))).sids = [((7 : Nat) : Int)])) :=
  ⟨by decide,
    C6_id_sid_remove_emit .little exW7 zeroCn 0 0 (by norm_num [cnMsgWF, zeroCn])
      (by norm_num) (by norm_num) ⟨7, 7, 0, 0⟩ (by norm_num [idWF]) ⟨7, 7⟩
      (by norm_num [sidWF]) PROC_EVENT_UID (Or.inl rfl) (by decide) (by decide)⟩

/-- C7: a datagram shorter than the netlink header size does not stop the
read loop: it produces exactly one error-queue entry, leaves the watch table
untouched, and the remaining receive schedule is processed exactly as if the
short datagram had not occurred. -/
theorem C7_short_datagram (bo : ByteOrder) (w : Watches) (bs : List Nat)
    (rest : List RecvResult) (h : bs.length < NLMSG_HDRLEN) :
    (readLoop bo w (.rdata bs :: rest)).errs = 1 + (readLoop bo w rest).errs ∧
    (readLoop bo w (.rdata bs :: rest)).forks = (readLoop bo w rest).forks ∧
    (readLoop bo w (.rdata bs :: rest)).execs = (readLoop bo w rest).execs ∧
    (readLoop bo w (.rdata bs :: rest)).exits = (readLoop bo w rest).exits ∧
    (readLoop bo w (.rdata bs :: rest)).uids = (readLoop bo w rest).uids ∧
    (readLoop bo w (.rdata bs :: rest)).sids = (readLoop bo w rest).sids ∧
    ∀ p, (readLoop bo w (.rdata bs :: rest)).watches p =
      (readLoop bo w rest).watches p := by
  have hstep : readStep bo w (.rdata bs) = { noop w with errs := 1 } := by
    simp [readStep, h]
  simp [readLoop, hstep, Out.seq, noop]

/-- C7 witness: a 2-byte datagram followed by the empty schedule. -/
theorem C7_short_datagram_witness :
    ([0, 0] : List Nat).length < NLMSG_HDRLEN ∧
    (readLoop .little exW1 [.rdata [0, 0]]).errs = 1 + (readLoop .little exW1 []).errs ∧
    (readLoop .little exW1 [.rdata [0, 0]]).forks = (readLoop .little exW1 []).forks ∧
    (readLoop .little exW1 [.rdata [0, 0]]).watches ((1 : Nat) : Int) =
      (readLoop .little exW1 []).watches ((1 : Nat) : Int) :=
  ⟨by decide,
    (C7_short_datagram .little exW1 [0, 0] [] (by decide)).1,
    (C7_short_datagram .little exW1 [0, 0] [] (by decide)).2.1,
    (C7_short_datagram .little exW1 [0, 0] [] (by decide)).2.2.2.2.2.2 1⟩

/-- C9: evaluated on a Fork event for a watched parent, the lock-discipline
trace of `handleEvent`'s fork-follow path contains watch-table reads made
while the mutex is not held — the direct `w.watches[ppid]` lookup runs after
`isWatching` has already released `watchesMutex`. -/
theorem C9_unlocked_fork_follow_read :
    locksOK 0 (handleForkTrace exW1 ⟨5, 1, 6, 2⟩) = false := by
  decide

end Psnotify
